import Mathlib

/-!
terraform-provider-vmc: the public-IP resource and the SDDC destroy check.

A shallow embedding of `vmc/resource_vmc_public_ip.go` (the importer and the four
CRUD handlers of the `vmc_public_ip` resource) and of `testCheckVmcSddcDestroy`
from `vmc/resource_vmc_sddc_test.go`.

Conventions of the embedding.

* A Go `error` result is an `Option GoError`; `none` is `nil`.
* A Go `*string` field is an `Option String`; `none` is the nil pointer.
* A handler mutates `d *schema.ResourceData` in place; here it returns the final
  value of `d` next to its result.
* The vendor service is a state `w : σ` threaded through the SDK client methods, and
  every SDK call a handler makes is appended to a trace of `SdkCall`s.
* Functions of the provider that live in other files (`IsValidUUID`, `IsValidURL`,
  `getNSXTReverseProxyURLConnector`, the `Handle…Error` wrappers) and the SDK client
  are parameters, collected in `Env`.
* Dereferencing a nil pointer is the outcome `Outcome.panicked`.
-/

namespace vmc

/-! ## Errors -/

/-- Error values: either one that comes out of a library, known by its `Error()` text,
or one built in this package by `fmt.Errorf` from a format and its operands. -/
inductive GoError where
  | sdk (text : String)
  | errorf (format : String) (args : List String)
  | errorfErr (format : String) (cause : GoError)
  deriving DecidableEq

/-! ## `strings.Split` with a one-character separator -/

/-- Pieces of `cs` between occurrences of `sep`; always at least one piece. -/
def splitChars (sep : Char) : List Char → List (List Char)
  | [] => [[]]
  | c :: cs =>
    if c = sep then [] :: splitChars sep cs
    else
      match splitChars sep cs with
      | [] => [[c]]
      | p :: ps => (c :: p) :: ps

/-- Go `strings.Split(s, sep)` for a separator of one character: the substrings of `s`
between the separators, `[s]` when there is none. -/
def strings.Split (s : String) (sep : Char) : List String :=
  (splitChars sep s.data).map String.mk

/-! ## `schema.ResourceData` of the `vmc_public_ip` resource -/

/-- Terraform resource data restricted to the schema of `resourcePublicIp`: the
resource ID, the three string attributes, and what `HasChange("display_name")`
answers (it compares prior state with the planned value, so `Set` does not alter it). -/
structure ResourceData where
  id : String
  nsxt_reverse_proxy_url : String
  ip : String
  display_name : String
  display_name_changed : Bool
  deriving DecidableEq

namespace ResourceData

/-- Go `d.Id()`. -/
def Id (d : ResourceData) : String := d.id

/-- Go `d.SetId(v)`. -/
def SetId (d : ResourceData) (v : String) : ResourceData := { d with id := v }

/-- Go `d.Get(key).(string)` for a key of the schema. -/
def Get (d : ResourceData) (key : String) : String :=
  if key = "nsxt_reverse_proxy_url" then d.nsxt_reverse_proxy_url
  else if key = "ip" then d.ip
  else if key = "display_name" then d.display_name
  else ""

/-- Go `d.Set(key, value)` for a string or `*string` value; a nil pointer stores the
empty string, and a key outside the schema stores nothing (the error is dropped by
every caller). -/
def Set (d : ResourceData) (key : String) (value : Option String) : ResourceData :=
  if key = "nsxt_reverse_proxy_url" then { d with nsxt_reverse_proxy_url := value.getD "" }
  else if key = "ip" then { d with ip := value.getD "" }
  else if key = "display_name" then { d with display_name := value.getD "" }
  else d

/-- Go `d.HasChange(key)`; only `display_name` is ever asked. -/
def HasChange (d : ResourceData) (key : String) : Bool :=
  if key = "display_name" then d.display_name_changed else false

end ResourceData

/-! ## The importer -/

/-- What `Importer.State` hands back: the returned slice (`nil` is `[]`), the returned
error, and the value of `d` when it returns. -/
structure ImportResult where
  datas : List ResourceData
  err : Option GoError
  d : ResourceData
  deriving DecidableEq

/-- The `State` function of `resourcePublicIp().Importer`. The Go condition
short-circuits, so `idParts[1]` is read only when there are two parts; `getD` gives
the same truth value. -/
def importState (IsValidUUID IsValidURL : String → Option GoError) (d : ResourceData) :
    ImportResult :=
  let idParts := strings.Split d.Id ','
  if idParts.length ≠ 2 ∨ idParts.getD 0 "" = "" ∨ idParts.getD 1 "" = "" then
    ⟨[], some (.errorf
      "unexpected format of ID (%q), expected public_ip_id,nsxt_reverse_proxy_url" [d.Id]), d⟩
  else
    match IsValidUUID (idParts.getD 0 "") with
    | some err => ⟨[], some (.errorfErr "invalid format for public_ip_id : %v" err), d⟩
    | none =>
      match IsValidURL (idParts.getD 1 "") with
      | some err =>
        ⟨[], some (.errorfErr "invalid format for nsxt_reverse_proxy_url : %v" err), d⟩
      | none =>
        let d1 := d.SetId (idParts.getD 0 "")
        let d2 := d1.Set "nsxt_reverse_proxy_url" (some (idParts.getD 1 ""))
        ⟨[d2], none, d2⟩

/-! ## The vendor model and SDK client -/

/-- The fields of `model.PublicIp` the provider touches; all three are `*string`. -/
structure PublicIp where
  DisplayName : Option String
  Id : Option String
  Ip : Option String
  deriving DecidableEq

/-- Go `model.PublicIpsListResult`, of which only `Results` is read. -/
structure PublicIpsListResult where
  Results : List PublicIp
  deriving DecidableEq

/-- One call of a method of the public-IP SDK client, with its arguments.
`ListPublicIps` is always called with five nil arguments. -/
inductive SdkCall where
  | CreatePublicIp (id : String) (publicIp : PublicIp)
  | GetPublicIp (id : String)
  | ListPublicIps
  | DeletePublicIp (id : String) (force : Option Bool)
  deriving DecidableEq

/-- The SDK client `api.CloudServiceVMCOnAWSPublicIPClient` over a service state `σ`:
each method answers from the current state and yields the next one. -/
structure PublicIPClient (σ : Type) where
  CreatePublicIp : σ → String → PublicIp → Except GoError PublicIp × σ
  GetPublicIp : σ → String → Except GoError PublicIp × σ
  ListPublicIps : σ → Except GoError PublicIpsListResult × σ
  DeletePublicIp : σ → String → Option Bool → Option GoError × σ

/-- Everything the handlers use that is defined outside `resource_vmc_public_ip.go`:
the connector builder, the client constructor and the error wrappers of the package.
`HandleReadError` receives `d` and may change it. -/
structure Env (κ σ : Type) where
  getNSXTReverseProxyURLConnector : String → Except GoError κ
  NewCloudServiceVMCOnAWSPublicIPClient : κ → PublicIPClient σ
  HandleCreateError : String → GoError → Option GoError
  HandleReadError : ResourceData → String → String → GoError → Option GoError × ResourceData
  HandleListError : String → GoError → Option GoError
  HandleUpdateError : String → GoError → Option GoError
  HandleDeleteError : String → String → GoError → Option GoError

/-- How a Go function ends: it returns its `error` result, or it panics on a nil
pointer dereference. -/
inductive Outcome where
  | returned (err : Option GoError)
  | panicked
  deriving DecidableEq

/-- One run of a handler: how it ended, `d` at that point, the service state, and the
SDK calls made, in order. -/
structure Run (σ : Type) where
  out : Outcome
  d : ResourceData
  w : σ
  calls : List SdkCall

/-- Put the calls `cs`, made before `r` started, in front of the calls of `r`. -/
def Run.after {σ : Type} (cs : List SdkCall) (r : Run σ) : Run σ :=
  { r with calls := cs ++ r.calls }

/-! ## The handlers -/

/-- The `for _, publicIp := range publicIpsList` loop of `resourcePublicIpRead`:
`none` when `*publicIp.DisplayName` dereferences a nil pointer, otherwise `d` after
the loop. -/
def readLoop (displayName : String) : List PublicIp → ResourceData → Option ResourceData
  | [], d => some d
  | publicIp :: rest, d =>
    match publicIp.DisplayName with
    | none => none
    | some name =>
      if displayName = name then
        some ((d.Set "ip" publicIp.Ip).Set "display_name" publicIp.DisplayName)
      else readLoop displayName rest d

/-- Go `resourcePublicIpRead(d, m)`; `m` is unused. `len(s) > 0` is `s.length > 0`. -/
def resourcePublicIpRead {κ σ : Type} (env : Env κ σ) (d : ResourceData) (w : σ) : Run σ :=
  let nsxtReverseProxyUrl := d.Get "nsxt_reverse_proxy_url"
  match env.getNSXTReverseProxyURLConnector nsxtReverseProxyUrl with
  | .error err =>
    ⟨.returned (env.HandleCreateError "NSXT reverse proxy URL connector" err), d, w, []⟩
  | .ok connector =>
    let nsxVmcAwsClient := env.NewCloudServiceVMCOnAWSPublicIPClient connector
    let uuid := d.Id
    if uuid.length > 0 then
      match nsxVmcAwsClient.GetPublicIp w uuid with
      | (.error err, w1) =>
        let r := env.HandleReadError d "Public IP" uuid err
        ⟨.returned r.1, r.2, w1, [.GetPublicIp uuid]⟩
      | (.ok publicIp, w1) =>
        let d1 := d.Set "ip" publicIp.Ip
        let d2 := d1.Set "display_name" publicIp.DisplayName
        ⟨.returned none, d2, w1, [.GetPublicIp uuid]⟩
    else
      let displayName := d.Get "display_name"
      if displayName.length > 0 then
        match nsxVmcAwsClient.ListPublicIps w with
        | (.error err, w1) =>
          ⟨.returned (env.HandleListError "Public IP" err), d, w1, [.ListPublicIps]⟩
        | (.ok publicIpResultList, w1) =>
          let publicIpsList := publicIpResultList.Results
          match readLoop displayName publicIpsList d with
          | none => ⟨.panicked, d, w1, [.ListPublicIps]⟩
          | some d1 => ⟨.returned none, d1, w1, [.ListPublicIps]⟩
      else ⟨.returned none, d, w, []⟩

/-- Go `resourcePublicIpCreate(d, m)`; `uuid` is the value of `uuid.NewV4().String()`. -/
def resourcePublicIpCreate {κ σ : Type} (env : Env κ σ) (uuid : String) (d : ResourceData)
    (w : σ) : Run σ :=
  let nsxtReverseProxyUrl := d.Get "nsxt_reverse_proxy_url"
  match env.getNSXTReverseProxyURLConnector nsxtReverseProxyUrl with
  | .error err =>
    ⟨.returned (env.HandleCreateError "NSXT reverse proxy URL connector" err), d, w, []⟩
  | .ok connector =>
    let nsxVmcAwsClient := env.NewCloudServiceVMCOnAWSPublicIPClient connector
    let displayName := d.Get "display_name"
    let publicIpModel : PublicIp := { DisplayName := some displayName, Id := some uuid, Ip := none }
    match nsxVmcAwsClient.CreatePublicIp w uuid publicIpModel with
    | (.error err, w1) =>
      ⟨.returned (env.HandleCreateError "Public IP" err), d, w1,
        [.CreatePublicIp uuid publicIpModel]⟩
    | (.ok publicIp, w1) =>
      match publicIp.Id with
      | none => ⟨.panicked, d, w1, [.CreatePublicIp uuid publicIpModel]⟩
      | some id =>
        (resourcePublicIpRead env (d.SetId id) w1).after [.CreatePublicIp uuid publicIpModel]

/-- Go `resourcePublicIpUpdate(d, m)`. -/
def resourcePublicIpUpdate {κ σ : Type} (env : Env κ σ) (d : ResourceData) (w : σ) : Run σ :=
  let nsxtReverseProxyUrl := d.Get "nsxt_reverse_proxy_url"
  match env.getNSXTReverseProxyURLConnector nsxtReverseProxyUrl with
  | .error err =>
    ⟨.returned (env.HandleCreateError "NSXT reverse proxy URL connector" err), d, w, []⟩
  | .ok connector =>
    let nsxVmcAwsClient := env.NewCloudServiceVMCOnAWSPublicIPClient connector
    if d.HasChange "display_name" then
      let uuid := d.Id
      let displayName := d.Get "display_name"
      let publicIpModel : PublicIp :=
        { DisplayName := some displayName, Id := some uuid, Ip := none }
      match nsxVmcAwsClient.CreatePublicIp w uuid publicIpModel with
      | (.error err, w1) =>
        ⟨.returned (env.HandleUpdateError "Public IP" err), d, w1,
          [.CreatePublicIp uuid publicIpModel]⟩
      | (.ok publicIp, w1) =>
        (resourcePublicIpRead env (d.Set "display_name" publicIp.DisplayName) w1).after
          [.CreatePublicIp uuid publicIpModel]
    else resourcePublicIpRead env d w

/-- Go `resourcePublicIpDelete(d, m)`. -/
def resourcePublicIpDelete {κ σ : Type} (env : Env κ σ) (d : ResourceData) (w : σ) : Run σ :=
  let nsxtReverseProxyUrl := d.Get "nsxt_reverse_proxy_url"
  match env.getNSXTReverseProxyURLConnector nsxtReverseProxyUrl with
  | .error err =>
    ⟨.returned (env.HandleCreateError "NSXT reverse proxy URL connector" err), d, w, []⟩
  | .ok connector =>
    let nsxVmcAwsClient := env.NewCloudServiceVMCOnAWSPublicIPClient connector
    let uuid := d.Id
    let forceDelete := true
    match nsxVmcAwsClient.DeletePublicIp w uuid (some forceDelete) with
    | (some err, w1) =>
      ⟨.returned (env.HandleDeleteError "Public IP" uuid err), d, w1,
        [.DeletePublicIp uuid (some forceDelete)]⟩
    | (none, w1) => ⟨.returned none, d.SetId "", w1, [.DeletePublicIp uuid (some forceDelete)]⟩

/-! ## The SDDC destroy check of the acceptance tests -/

/-- The fields of `model.Sddc` the check reads: `SddcState` and `Name` are `*string`,
`Id` is a `string`. -/
structure Sddc where
  SddcState : Option String
  Name : Option String
  Id : String
  deriving DecidableEq

/-- A `terraform.ResourceState`: its type and the attribute map of its primary
instance, as a list of key and value. -/
structure ResourceState where
  type : String
  attributes : List (String × String)
  deriving DecidableEq

/-- Go `rs.Primary.Attributes[key]`: the empty string when the key is missing. -/
def ResourceState.attr (rs : ResourceState) (key : String) : String :=
  ((rs.attributes.find? (fun kv => kv.1 = key)).map Prod.snd).getD ""

/-- Go `testCheckVmcSddcDestroy(s)`. `resources` are the values of
`s.RootModule().Resources` in the order the `range` visits them (Go leaves that order
open); `Get` is `sddcClient.Get`; `errorText` is the `Error()` method and `notFound`
is `errors.NotFound{}`. -/
def testCheckVmcSddcDestroy (Get : String → String → Except GoError Sddc)
    (errorText : GoError → String) (notFound : GoError) : List ResourceState → Outcome
  | [] => .returned none
  | rs :: rest =>
    if rs.type ≠ "vmc_sddc" then testCheckVmcSddcDestroy Get errorText notFound rest
    else
      let sddcID := rs.attr "id"
      let orgID := rs.attr "org_id"
      match Get orgID sddcID with
      | .ok sddc =>
        match sddc.SddcState with
        | none => .panicked
        | some st =>
          if st ≠ "DELETED" then
            match sddc.Name with
            | none => .panicked
            | some name => .returned (some (.errorf "SDDC %s with ID %s still exits" [name, sddc.Id]))
          else .returned none
      | .error err =>
        if errorText err ≠ errorText notFound then .returned (some err)
        else testCheckVmcSddcDestroy Get errorText notFound rest

/-! ## Concrete instances on which the handlers are evaluated -/

/-- An in-memory public-IP service whose state is the list of stored public IPs:
`CreatePublicIp` stores the model under the path id with a fixed address and fails
when the id is taken, `GetPublicIp` finds by `Id`, `ListPublicIps` returns the whole list, `DeletePublicIp` removes by `Id`. -/
def demoClient : PublicIPClient (List PublicIp) where
  CreatePublicIp w id m :=
    if w.any (fun p => p.Id = some id) then (.error (.sdk "already exists"), w)
    else
      (.ok { m with Id := some id, Ip := some "203.0.113.7" },
        { m with Id := some id, Ip := some "203.0.113.7" } :: w)
  GetPublicIp w id :=
    match w.find? (fun p => p.Id = some id) with
    | some p => (.ok p, w)
    | none => (.error (.sdk "not found"), w)
  ListPublicIps w := (.ok ⟨w⟩, w)
  DeletePublicIp w id _ :=
    if w.any (fun p => p.Id = some id) then (none, w.filter (fun p => p.Id ≠ some id))
    else (some (.sdk "not found"), w)

/-- An environment over `demoClient`: the connector is the URL itself and cannot be
built from the empty URL; every wrapper wraps the error it is given. -/
def demoEnv : Env String (List PublicIp) where
  getNSXTReverseProxyURLConnector url :=
    if url = "" then .error (.sdk "NSXT reverse proxy url is required") else .ok url
  NewCloudServiceVMCOnAWSPublicIPClient _ := demoClient
  HandleCreateError t e := some (.errorfErr ("error while creating " ++ t ++ ": %v") e)
  HandleReadError d t _ e := (some (.errorfErr ("error while reading " ++ t ++ ": %v") e), d)
  HandleListError t e := some (.errorfErr ("error while listing " ++ t ++ ": %v") e)
  HandleUpdateError t e := some (.errorfErr ("error while updating " ++ t ++ ": %v") e)
  HandleDeleteError t _ e := some (.errorfErr ("error while deleting " ++ t ++ ": %v") e)

/-- A validator that accepts exactly the strings of 36 characters. -/
def demoIsValidUUID (s : String) : Option GoError :=
  if s.length = 36 then none else some (.sdk "uuid: incorrect UUID length")

/-- A validator that accepts exactly the strings that start with `https://`. -/
def demoIsValidURL (s : String) : Option GoError :=
  if s.data.take 8 = "https://".data then none else some (.sdk "invalid URI for request")

/-- Resource data with an empty ID and the given URL and display name. -/
def demoData (url displayName : String) : ResourceData :=
  { id := "", nsxt_reverse_proxy_url := url, ip := "", display_name := displayName,
    display_name_changed := false }

/-- A `Get` under which SDDC `sddc-a` is `DELETED`, SDDC `sddc-b` is `READY`, and every
other id is not found. -/
def demoGet (_orgID sddcID : String) : Except GoError Sddc :=
  if sddcID = "sddc-a" then .ok ⟨some "DELETED", some "a", "sddc-a"⟩
  else if sddcID = "sddc-b" then .ok ⟨some "READY", some "b", "sddc-b"⟩
  else .error (.sdk "com.vmware.vapi.std.errors.not_found")

/-- The `Error()` text of an error from the SDK (the others do not occur under `demoGet`). -/
def demoErrorText : GoError → String
  | .sdk t => t
  | .errorf f _ => f
  | .errorfErr f _ => f

/-- A Terraform state with two `vmc_sddc` resources, `sddc-a` visited before `sddc-b`. -/
def demoResources : List ResourceState :=
  [⟨"vmc_sddc", [("id", "sddc-a"), ("org_id", "org-1")]⟩,
   ⟨"vmc_sddc", [("id", "sddc-b"), ("org_id", "org-1")]⟩]

/-! ## Lemmas and theorems -/

theorem splitChars_ne_nil (sep : Char) (cs : List Char) : splitChars sep cs ≠ [] := by
  induction cs with
  | nil => simp [splitChars]
  | cons c cs ih =>
    unfold splitChars
    split
    · simp
    · split <;> simp

theorem splitChars_length (sep : Char) (cs : List Char) :
    (splitChars sep cs).length = cs.count sep + 1 := by
  induction cs with
  | nil => simp [splitChars]
  | cons c cs ih =>
    unfold splitChars
    by_cases h : c = sep
    · subst h
      simp [ih]
    · simp only [h, if_false]
      have hne := splitChars_ne_nil sep cs
      cases hs : splitChars sep cs with
      | nil => exact absurd hs hne
      | cons p ps =>
        rw [hs] at ih
        simp only [List.length_cons] at ih ⊢
        rw [List.count_cons_of_ne (Ne.symm h)]
        exact ih

theorem splitChars_of_not_mem (sep : Char) (cs : List Char) (h : sep ∉ cs) :
    splitChars sep cs = [cs] := by
  induction cs with
  | nil => simp [splitChars]
  | cons c cs ih =>
    have hc : c ≠ sep := fun e => h (by simp [e])
    have hcs : sep ∉ cs := fun e => h (by simp [e])
    unfold splitChars
    simp [hc, ih hcs]

theorem splitChars_append_sep (sep : Char) (a rest : List Char) (h : sep ∉ a) :
    splitChars sep (a ++ sep :: rest) = a :: splitChars sep rest := by
  induction a with
  | nil => simp [splitChars]
  | cons c cs ih =>
    have hc : c ≠ sep := fun e => h (by simp [e])
    have hcs : sep ∉ cs := fun e => h (by simp [e])
    have e : splitChars sep (c :: (cs ++ sep :: rest)) = (c :: cs) :: splitChars sep rest := by
      rw [splitChars]
      simp [hc, ih hcs]
    simpa using e

theorem Split_two (a b : String) (ha : ',' ∉ a.data) (hb : ',' ∉ b.data) :
    strings.Split (a ++ "," ++ b) ',' = [a, b] := by
  unfold strings.Split
  have : (a ++ "," ++ b).data = a.data ++ ',' :: b.data := by
    simp [String.data_append]
  rw [this, splitChars_append_sep _ _ _ ha, splitChars_of_not_mem _ _ hb]
  simp

theorem importState_ok_of_split (IsValidUUID IsValidURL : String → Option GoError)
    (d : ResourceData) (a b : String) (ha : a ≠ "") (hb : b ≠ "")
    (hu : IsValidUUID a = none) (hl : IsValidURL b = none)
    (hs : strings.Split d.id ',' = [a, b]) :
      importState IsValidUUID IsValidURL d =
        ⟨[{ d with id := a, nsxt_reverse_proxy_url := b }], none,
          { d with id := a, nsxt_reverse_proxy_url := b }⟩ := by
  simp [importState, ResourceData.Id, hs, ha, hb, hu, hl, ResourceData.SetId, ResourceData.Set]

/-- C1: for non-empty `a` and `b` on which `IsValidUUID` and `IsValidURL` succeed, if
splitting the import ID on `,` gives exactly `[a, b]`, the importer returns no error and
exactly one resource data, whose ID is `a` and whose `nsxt_reverse_proxy_url` is `b`, all
other attributes as before; and this is the case for every ID `a ++ "," ++ b` with `a`
and `b` free of commas. -/
theorem importState_populates (IsValidUUID IsValidURL : String → Option GoError)
    (d : ResourceData) (a b : String) (ha : a ≠ "") (hb : b ≠ "")
    (hu : IsValidUUID a = none) (hl : IsValidURL b = none) :
    (strings.Split d.id ',' = [a, b] →
      importState IsValidUUID IsValidURL d =
        ⟨[{ d with id := a, nsxt_reverse_proxy_url := b }], none,
          { d with id := a, nsxt_reverse_proxy_url := b }⟩) ∧
    (d.id = a ++ "," ++ b → ',' ∉ a.data → ',' ∉ b.data →
      importState IsValidUUID IsValidURL d =
        ⟨[{ d with id := a, nsxt_reverse_proxy_url := b }], none,
          { d with id := a, nsxt_reverse_proxy_url := b }⟩) := by
  refine ⟨importState_ok_of_split IsValidUUID IsValidURL d a b ha hb hu hl, ?_⟩
  intro hid hca hcb
  apply importState_ok_of_split IsValidUUID IsValidURL d a b ha hb hu hl
  rw [hid]
  exact Split_two a b hca hcb

/-- C1, instance: importing `<uuid>,https://nsx.example.com/vmc` yields one resource data
with the UUID as ID and the URL as `nsxt_reverse_proxy_url`. -/
theorem importState_populates_witness :
    importState demoIsValidUUID demoIsValidURL
        { demoData "" "web" with
          id := "123e4567-e89b-12d3-a456-426614174000,https://nsx.example.com/vmc" } =
      ⟨[{ demoData "https://nsx.example.com/vmc" "web" with
          id := "123e4567-e89b-12d3-a456-426614174000" }], none,
        { demoData "https://nsx.example.com/vmc" "web" with
          id := "123e4567-e89b-12d3-a456-426614174000" }⟩ :=
  (importState_populates demoIsValidUUID demoIsValidURL
    { demoData "" "web" with
      id := "123e4567-e89b-12d3-a456-426614174000,https://nsx.example.com/vmc" }
    "123e4567-e89b-12d3-a456-426614174000" "https://nsx.example.com/vmc"
    (by decide) (by decide) (by decide) (by decide)).1 (by decide)

theorem importState_of_two (IsValidUUID IsValidURL : String → Option GoError)
    (d : ResourceData) (a b : String) (hs : strings.Split d.id ',' = [a, b]) :
    importState IsValidUUID IsValidURL d =
      if a = "" ∨ b = "" then
        ⟨[], some (.errorf
          "unexpected format of ID (%q), expected public_ip_id,nsxt_reverse_proxy_url" [d.id]), d⟩
      else
        match IsValidUUID a with
        | some err => ⟨[], some (.errorfErr "invalid format for public_ip_id : %v" err), d⟩
        | none =>
          match IsValidURL b with
          | some err =>
            ⟨[], some (.errorfErr "invalid format for nsxt_reverse_proxy_url : %v" err), d⟩
          | none =>
            ⟨[{ d with id := a, nsxt_reverse_proxy_url := b }], none,
              { d with id := a, nsxt_reverse_proxy_url := b }⟩ := by
  simp only [importState, ResourceData.Id, hs, ResourceData.SetId, ResourceData.Set]
  simp

theorem importState_of_not_two (IsValidUUID IsValidURL : String → Option GoError)
    (d : ResourceData) (hs : (strings.Split d.id ',').length ≠ 2) :
    importState IsValidUUID IsValidURL d =
      ⟨[], some (.errorf
        "unexpected format of ID (%q), expected public_ip_id,nsxt_reverse_proxy_url" [d.id]), d⟩ := by
  simp [importState, ResourceData.Id, hs]

theorem Split_length (s : String) :
    (strings.Split s ',').length = s.data.count ',' + 1 := by
  simp [strings.Split, splitChars_length]

/-- C2: the importer returns an error exactly when splitting the import ID on `,` does
not give two parts, or gives two parts of which one is empty, or `IsValidUUID` fails on
the first, or `IsValidURL` fails on the second; whenever it returns an error it returns
no resource data and leaves `d` (ID and attributes) as it was; and an ID `a ++ "," ++ b`
whose part `b` contains a comma gets the `unexpected format of ID` error. -/
theorem importState_error_iff (IsValidUUID IsValidURL : String → Option GoError)
    (d : ResourceData) :
    ((importState IsValidUUID IsValidURL d).err ≠ none ↔
      (∀ a b, strings.Split d.id ',' ≠ [a, b]) ∨
      (∃ a b, strings.Split d.id ',' = [a, b] ∧
        (a = "" ∨ b = "" ∨ IsValidUUID a ≠ none ∨ IsValidURL b ≠ none))) ∧
    ((importState IsValidUUID IsValidURL d).err ≠ none →
      (importState IsValidUUID IsValidURL d).datas = [] ∧
      (importState IsValidUUID IsValidURL d).d = d) ∧
    (∀ a b : String, d.id = a ++ "," ++ b → ',' ∈ b.data →
      importState IsValidUUID IsValidURL d =
        ⟨[], some (.errorf
          "unexpected format of ID (%q), expected public_ip_id,nsxt_reverse_proxy_url" [d.id]),
          d⟩) := by
  refine ⟨?_, ?_, ?_⟩
  · by_cases h2 : ∃ a b, strings.Split d.id ',' = [a, b]
    · obtain ⟨a, b, hs⟩ := h2
      rw [importState_of_two _ _ d a b hs]
      constructor
      · intro he
        refine Or.inr ⟨a, b, hs, ?_⟩
        by_contra hcon
        simp only [not_or, not_not] at hcon
        obtain ⟨ha, hb, hu, hl⟩ := hcon
        simp [ha, hb, hu, hl] at he
      · rintro (hno | ⟨a1, b1, hs1, hbad⟩)
        · exact absurd hs (hno a b)
        · rw [hs] at hs1
          simp only [List.cons.injEq, and_true] at hs1
          obtain ⟨rfl, rfl⟩ := hs1
          by_cases hab : a = "" ∨ b = ""
          · simp [hab]
          · simp only [hab, if_false]
            have hrest : IsValidUUID a ≠ none ∨ IsValidURL b ≠ none := by
              rcases hbad with h | h | h | h
              · exact absurd (Or.inl h) hab
              · exact absurd (Or.inr h) hab
              · exact Or.inl h
              · exact Or.inr h
            cases hu : IsValidUUID a with
            | some e => simp
            | none =>
              cases hl : IsValidURL b with
              | some e => simp
              | none => simp [hu, hl] at hrest
    · have hlen : (strings.Split d.id ',').length ≠ 2 := by
        intro hl
        apply h2
        match hq : strings.Split d.id ',', hl with
        | [a, b], _ => exact ⟨a, b, rfl⟩
      rw [importState_of_not_two _ _ d hlen]
      simp only [ne_eq, reduceCtorEq, not_false_eq_true, true_iff]
      exact Or.inl (fun a b hs => h2 ⟨a, b, hs⟩)
  · by_cases hlen : (strings.Split d.id ',').length = 2
    · match hq : strings.Split d.id ',', hlen with
      | [a, b], _ =>
        rw [importState_of_two _ _ d a b hq]
        by_cases hab : a = "" ∨ b = ""
        · simp [hab]
        · simp only [hab, if_false]
          cases hu : IsValidUUID a with
          | some e => simp
          | none =>
            cases hl : IsValidURL b with
            | some e => simp
            | none => simp
    · rw [importState_of_not_two _ _ d hlen]
      simp
  · intro a b hid hb
    apply importState_of_not_two
    rw [Split_length, hid]
    have hd : (a ++ "," ++ b).data = a.data ++ ',' :: b.data := by
      simp [String.data_append]
    rw [hd, List.count_append, List.count_cons_self]
    have : 0 < b.data.count ',' := List.count_pos_iff.mpr hb
    omega


theorem Get_url (d : ResourceData) : d.Get "nsxt_reverse_proxy_url" = d.nsxt_reverse_proxy_url := by
  simp [ResourceData.Get]

theorem Get_display_name (d : ResourceData) : d.Get "display_name" = d.display_name := by
  simp [ResourceData.Get]

theorem Set_ip (d : ResourceData) (v : Option String) :
    d.Set "ip" v = { d with ip := v.getD "" } := by
  simp [ResourceData.Set]

theorem Set_display_name (d : ResourceData) (v : Option String) :
    d.Set "display_name" v = { d with display_name := v.getD "" } := by
  simp [ResourceData.Set]

theorem HasChange_display_name (d : ResourceData) :
    d.HasChange "display_name" = d.display_name_changed := by
  simp [ResourceData.HasChange]

theorem length_pos_iff (s : String) : s.length > 0 ↔ s ≠ "" := by
  constructor
  · intro h e
    subst e
    simp at h
  · intro h
    cases s with
    | mk cs =>
      cases cs with
      | nil => exact absurd rfl h
      | cons c cs => simp [String.length]

/-- C4: when the connector can be built, `resourcePublicIpDelete` makes exactly one SDK
call, `DeletePublicIp` with the current ID and force = true; if the call succeeds Delete
returns nil and the ID becomes the empty string (attributes unchanged); if it fails with
`e` Delete returns `HandleDeleteError("Public IP", id, e)` and leaves ID and attributes
unchanged. -/
theorem resourcePublicIpDelete_spec {κ σ : Type} (env : Env κ σ) (d : ResourceData) (w : σ)
    (connector : κ)
    (hc : env.getNSXTReverseProxyURLConnector d.nsxt_reverse_proxy_url = .ok connector) :
    (resourcePublicIpDelete env d w).calls = [.DeletePublicIp d.id (some true)] ∧
    (∀ w1, (env.NewCloudServiceVMCOnAWSPublicIPClient connector).DeletePublicIp w d.id (some true)
        = (none, w1) →
      (resourcePublicIpDelete env d w).out = .returned none ∧
      (resourcePublicIpDelete env d w).d = { d with id := "" } ∧
      (resourcePublicIpDelete env d w).w = w1) ∧
    (∀ e w1, (env.NewCloudServiceVMCOnAWSPublicIPClient connector).DeletePublicIp w d.id (some true)
        = (some e, w1) →
      (resourcePublicIpDelete env d w).out = .returned (env.HandleDeleteError "Public IP" d.id e) ∧
      (resourcePublicIpDelete env d w).d = d ∧
      (resourcePublicIpDelete env d w).w = w1) := by
  simp only [resourcePublicIpDelete, Get_url, hc, ResourceData.Id, ResourceData.SetId]
  refine ⟨?_, ?_, ?_⟩
  · split <;> rfl
  · intro w1 h
    rw [h]
    exact ⟨rfl, rfl, rfl⟩
  · intro e w1 h
    rw [h]
    exact ⟨rfl, rfl, rfl⟩

/-- C4, instance: deleting the stored public IP `7` on the in-memory service. -/
theorem resourcePublicIpDelete_spec_witness :
    demoEnv.getNSXTReverseProxyURLConnector
      ({ demoData "https://nsx" "web" with id := "7" } : ResourceData).nsxt_reverse_proxy_url
      = .ok "https://nsx" ∧
    (resourcePublicIpDelete demoEnv { demoData "https://nsx" "web" with id := "7" }
      [⟨some "web", some "7", some "203.0.113.7"⟩]).calls = [.DeletePublicIp "7" (some true)] :=
  ⟨rfl, (resourcePublicIpDelete_spec demoEnv { demoData "https://nsx" "web" with id := "7" }
    [⟨some "web", some "7", some "203.0.113.7"⟩] "https://nsx" rfl).1⟩

/-- C7: if the connector is built and `CreatePublicIp` returns the error `e` inside
`resourcePublicIpCreate`, then Create returns `HandleCreateError("Public IP", e)`, leaves
the resource ID and every attribute as they were, and its only SDK call is that
`CreatePublicIp`: no `GetPublicIp` or `ListPublicIps` read-back. -/
theorem resourcePublicIpCreate_failure {κ σ : Type} (env : Env κ σ) (u : String)
    (d : ResourceData) (w : σ) (connector : κ) (e : GoError) (w1 : σ)
    (hc : env.getNSXTReverseProxyURLConnector d.nsxt_reverse_proxy_url = .ok connector)
    (hcreate : (env.NewCloudServiceVMCOnAWSPublicIPClient connector).CreatePublicIp w u
      { DisplayName := some d.display_name, Id := some u, Ip := none } = (.error e, w1)) :
    (resourcePublicIpCreate env u d w).out = .returned (env.HandleCreateError "Public IP" e) ∧
    (resourcePublicIpCreate env u d w).d = d ∧
    (resourcePublicIpCreate env u d w).calls =
      [.CreatePublicIp u { DisplayName := some d.display_name, Id := some u, Ip := none }] ∧
    (∀ id, SdkCall.GetPublicIp id ∉ (resourcePublicIpCreate env u d w).calls) ∧
    SdkCall.ListPublicIps ∉ (resourcePublicIpCreate env u d w).calls := by
  simp only [resourcePublicIpCreate, Get_url, Get_display_name, hc, hcreate]
  simp

/-- C7, instance: creating under an id that the in-memory service already holds fails,
and Create passes the error through. -/
theorem resourcePublicIpCreate_failure_witness :
    (resourcePublicIpCreate demoEnv "u-1" (demoData "https://nsx" "web")
      [⟨some "db", some "u-1", some "203.0.113.7"⟩]).out =
        .returned (demoEnv.HandleCreateError "Public IP" (.sdk "already exists")) ∧
    (resourcePublicIpCreate demoEnv "u-1" (demoData "https://nsx" "web")
      [⟨some "db", some "u-1", some "203.0.113.7"⟩]).d = demoData "https://nsx" "web" :=
  ⟨(resourcePublicIpCreate_failure demoEnv "u-1" (demoData "https://nsx" "web")
      [⟨some "db", some "u-1", some "203.0.113.7"⟩] "https://nsx" (.sdk "already exists")
      [⟨some "db", some "u-1", some "203.0.113.7"⟩] rfl rfl).1,
    (resourcePublicIpCreate_failure demoEnv "u-1" (demoData "https://nsx" "web")
      [⟨some "db", some "u-1", some "203.0.113.7"⟩] "https://nsx" (.sdk "already exists")
      [⟨some "db", some "u-1", some "203.0.113.7"⟩] rfl rfl).2.1⟩

theorem readLoop_eq_find (name : String) (l : List PublicIp) (d : ResourceData)
    (hl : ∀ p ∈ l, p.DisplayName ≠ none) :
    readLoop name l d =
      some (match l.find? (fun p => decide (p.DisplayName = some name)) with
        | some p => { d with ip := p.Ip.getD "", display_name := p.DisplayName.getD "" }
        | none => d) := by
  induction l with
  | nil => simp [readLoop]
  | cons p rest ih =>
    have hp : p.DisplayName ≠ none := hl p (by simp)
    have hrest : ∀ q ∈ rest, q.DisplayName ≠ none := fun q hq => hl q (by simp [hq])
    cases hn : p.DisplayName with
    | none => exact absurd hn hp
    | some n =>
      by_cases hnm : name = n
      · subst hnm
        simp [readLoop, hn, List.find?, Set_ip, Set_display_name]
      · have hne : ¬ (n = name) := fun e => hnm e.symm
        simp [readLoop, hn, hnm, List.find?, hne, ih hrest]

theorem read_no_create {κ σ : Type} (env : Env κ σ) (d : ResourceData) (w : σ)
    (id : String) (m : PublicIp) :
    SdkCall.CreatePublicIp id m ∉ (resourcePublicIpRead env d w).calls := by
  unfold resourcePublicIpRead
  simp only []
  split
  · simp
  · split
    · split <;> simp
    · split
      · split
        · simp
        · split <;> simp
      · simp

theorem read_eq_of_id {κ σ : Type} (env : Env κ σ) (d : ResourceData) (w : σ) (connector : κ)
    (hc : env.getNSXTReverseProxyURLConnector d.nsxt_reverse_proxy_url = .ok connector)
    (hid : d.id ≠ "") :
    resourcePublicIpRead env d w =
      match (env.NewCloudServiceVMCOnAWSPublicIPClient connector).GetPublicIp w d.id with
      | (.error err, w1) =>
        ⟨.returned (env.HandleReadError d "Public IP" d.id err).1,
          (env.HandleReadError d "Public IP" d.id err).2, w1, [.GetPublicIp d.id]⟩
      | (.ok publicIp, w1) =>
        ⟨.returned none,
          { d with ip := publicIp.Ip.getD "", display_name := publicIp.DisplayName.getD "" },
          w1, [.GetPublicIp d.id]⟩ := by
  have h0 : d.id.length > 0 := (length_pos_iff _).mpr hid
  simp only [resourcePublicIpRead, Get_url, hc, ResourceData.Id, h0, if_true, Set_ip,
    Set_display_name]

theorem read_eq_of_name {κ σ : Type} (env : Env κ σ) (d : ResourceData) (w : σ)
    (connector : κ)
    (hc : env.getNSXTReverseProxyURLConnector d.nsxt_reverse_proxy_url = .ok connector)
    (hid : d.id = "") (hn : d.display_name ≠ "") :
    resourcePublicIpRead env d w =
      match (env.NewCloudServiceVMCOnAWSPublicIPClient connector).ListPublicIps w with
      | (.error err, w1) =>
        ⟨.returned (env.HandleListError "Public IP" err), d, w1, [.ListPublicIps]⟩
      | (.ok publicIpResultList, w1) =>
        match readLoop d.display_name publicIpResultList.Results d with
        | none => ⟨.panicked, d, w1, [.ListPublicIps]⟩
        | some d1 => ⟨.returned none, d1, w1, [.ListPublicIps]⟩ := by
  have h0 : ¬ (d.id.length > 0) := fun h => (length_pos_iff _).mp h hid
  have h1 : d.display_name.length > 0 := (length_pos_iff _).mpr hn
  simp only [resourcePublicIpRead, Get_url, Get_display_name, hc, ResourceData.Id, h0, h1,
    if_true, if_false]

theorem read_eq_of_empty {κ σ : Type} (env : Env κ σ) (d : ResourceData) (w : σ)
    (connector : κ)
    (hc : env.getNSXTReverseProxyURLConnector d.nsxt_reverse_proxy_url = .ok connector)
    (hid : d.id = "") (hn : d.display_name = "") :
    resourcePublicIpRead env d w = ⟨.returned none, d, w, []⟩ := by
  have h0 : ¬ (d.id.length > 0) := fun h => (length_pos_iff _).mp h hid
  have h1 : ¬ (d.display_name.length > 0) := fun h => (length_pos_iff _).mp h hn
  simp only [resourcePublicIpRead, Get_url, Get_display_name, hc, ResourceData.Id, h0, h1,
    if_false]

theorem read_calls_length {κ σ : Type} (env : Env κ σ) (d : ResourceData) (w : σ)
    (connector : κ)
    (hc : env.getNSXTReverseProxyURLConnector d.nsxt_reverse_proxy_url = .ok connector) :
    (resourcePublicIpRead env d w).calls.length =
      if d.id = "" ∧ d.display_name = "" then 0 else 1 := by
  by_cases hid : d.id = ""
  · by_cases hn : d.display_name = ""
    · rw [read_eq_of_empty env d w connector hc hid hn, if_pos ⟨hid, hn⟩]
      rfl
    · rw [read_eq_of_name env d w connector hc hid hn, if_neg (fun h => hn h.2)]
      split
      · rfl
      · split <;> rfl
  · rw [read_eq_of_id env d w connector hc hid, if_neg (fun h => hid h.1)]
    split <;> rfl

theorem create_eq_of_ok {κ σ : Type} (env : Env κ σ) (u : String) (d : ResourceData) (w : σ)
    (connector : κ) (p : PublicIp) (w1 : σ) (i : String)
    (hc : env.getNSXTReverseProxyURLConnector d.nsxt_reverse_proxy_url = .ok connector)
    (hcreate : (env.NewCloudServiceVMCOnAWSPublicIPClient connector).CreatePublicIp w u
      { DisplayName := some d.display_name, Id := some u, Ip := none } = (.ok p, w1))
    (hp : p.Id = some i) :
    resourcePublicIpCreate env u d w =
      (resourcePublicIpRead env { d with id := i } w1).after
        [.CreatePublicIp u { DisplayName := some d.display_name, Id := some u, Ip := none }] := by
  simp only [resourcePublicIpCreate, Get_url, Get_display_name, hc, hcreate, hp,
    ResourceData.SetId]

theorem create_calls {κ σ : Type} (env : Env κ σ) (u : String) (d : ResourceData) (w : σ)
    (connector : κ)
    (hc : env.getNSXTReverseProxyURLConnector d.nsxt_reverse_proxy_url = .ok connector) :
    ∃ rest, (resourcePublicIpCreate env u d w).calls =
        .CreatePublicIp u { DisplayName := some d.display_name, Id := some u, Ip := none } :: rest ∧
      (∀ id m, SdkCall.CreatePublicIp id m ∉ rest) ∧ rest.length ≤ 1 := by
  cases hcr : (env.NewCloudServiceVMCOnAWSPublicIPClient connector).CreatePublicIp w u
      { DisplayName := some d.display_name, Id := some u, Ip := none } with
  | mk res w1 =>
    cases res with
    | error e =>
      refine ⟨[], ?_, by simp, by simp⟩
      simp only [resourcePublicIpCreate, Get_url, Get_display_name, hc, hcr]
    | ok p =>
      cases hp : p.Id with
      | none =>
        refine ⟨[], ?_, by simp, by simp⟩
        simp only [resourcePublicIpCreate, Get_url, Get_display_name, hc, hcr, hp]
      | some i =>
        refine ⟨(resourcePublicIpRead env { d with id := i } w1).calls, ?_, ?_, ?_⟩
        · rw [create_eq_of_ok env u d w connector p w1 i hc hcr hp]
          rfl
        · intro id m
          exact read_no_create env _ w1 id m
        · rw [read_calls_length env { d with id := i } w1 connector hc]
          split <;> simp

/-- C3 (amended): when the connector can be built, `resourcePublicIpCreate` first calls
`CreatePublicIp` with the generated UUID `u` as path id and the model
`{DisplayName: display_name, Id: u}`, and makes no other `CreatePublicIp` call; when that
call succeeds returning a public IP with `Id` `i`, the run of Create is that call followed
by `resourcePublicIpRead` on the state with ID `i` and the service state after the call:
same return value, same resulting state, same remaining calls. -/
theorem resourcePublicIpCreate_readback {κ σ : Type} (env : Env κ σ) (u : String)
    (d : ResourceData) (w : σ) (connector : κ)
    (hc : env.getNSXTReverseProxyURLConnector d.nsxt_reverse_proxy_url = .ok connector) :
    (∃ rest, (resourcePublicIpCreate env u d w).calls =
        .CreatePublicIp u { DisplayName := some d.display_name, Id := some u, Ip := none } :: rest ∧
      ∀ id m, SdkCall.CreatePublicIp id m ∉ rest) ∧
    (∀ p w1 i, (env.NewCloudServiceVMCOnAWSPublicIPClient connector).CreatePublicIp w u
        { DisplayName := some d.display_name, Id := some u, Ip := none } = (.ok p, w1) →
      p.Id = some i →
      (resourcePublicIpCreate env u d w).out =
        (resourcePublicIpRead env { d with id := i } w1).out ∧
      (resourcePublicIpCreate env u d w).d =
        (resourcePublicIpRead env { d with id := i } w1).d ∧
      (resourcePublicIpCreate env u d w).w =
        (resourcePublicIpRead env { d with id := i } w1).w ∧
      (resourcePublicIpCreate env u d w).calls =
        .CreatePublicIp u { DisplayName := some d.display_name, Id := some u, Ip := none } ::
          (resourcePublicIpRead env { d with id := i } w1).calls) := by
  refine ⟨?_, ?_⟩
  · obtain ⟨rest, h1, h2, _⟩ := create_calls env u d w connector hc
    exact ⟨rest, h1, h2⟩
  · intro p w1 i hcr hp
    rw [create_eq_of_ok env u d w connector p w1 i hc hcr hp]
    exact ⟨rfl, rfl, rfl, rfl⟩

/-- C3, instance: on the in-memory service with URL `https://nsx`, Create calls
`CreatePublicIp "u-1"` and then reads back. -/
theorem resourcePublicIpCreate_readback_witness :
    demoEnv.getNSXTReverseProxyURLConnector (demoData "https://nsx" "web").nsxt_reverse_proxy_url
      = .ok "https://nsx" ∧
    ∃ rest, (resourcePublicIpCreate demoEnv "u-1" (demoData "https://nsx" "web") []).calls =
        .CreatePublicIp "u-1" { DisplayName := some "web", Id := some "u-1", Ip := none } :: rest ∧
      ∀ id m, SdkCall.CreatePublicIp id m ∉ rest :=
  ⟨rfl,
    (resourcePublicIpCreate_readback demoEnv "u-1" (demoData "https://nsx" "web") []
      "https://nsx" rfl).1⟩

/-- C3, counterexample: with the empty URL the connector cannot be built, and Create
returns the wrapped connector error without calling `CreatePublicIp` at all. -/
theorem resourcePublicIpCreate_no_call_without_connector :
    (resourcePublicIpCreate demoEnv "u-1" (demoData "" "web") []).calls = [] ∧
    (resourcePublicIpCreate demoEnv "u-1" (demoData "" "web") []).out =
      .returned (demoEnv.HandleCreateError "NSXT reverse proxy URL connector"
        (.sdk "NSXT reverse proxy url is required")) := by
  decide

theorem update_eq_of_unchanged {κ σ : Type} (env : Env κ σ) (d : ResourceData) (w : σ)
    (hch : d.display_name_changed = false) :
    resourcePublicIpUpdate env d w = resourcePublicIpRead env d w := by
  simp only [resourcePublicIpUpdate, HasChange_display_name, hch, Get_url]
  cases hc : env.getNSXTReverseProxyURLConnector d.nsxt_reverse_proxy_url with
  | error e => simp [resourcePublicIpRead, Get_url, hc]
  | ok connector => simp

theorem update_eq_of_ok {κ σ : Type} (env : Env κ σ) (d : ResourceData) (w : σ)
    (connector : κ) (p : PublicIp) (w1 : σ)
    (hc : env.getNSXTReverseProxyURLConnector d.nsxt_reverse_proxy_url = .ok connector)
    (hch : d.display_name_changed = true)
    (hcreate : (env.NewCloudServiceVMCOnAWSPublicIPClient connector).CreatePublicIp w d.id
      { DisplayName := some d.display_name, Id := some d.id, Ip := none } = (.ok p, w1)) :
    resourcePublicIpUpdate env d w =
      (resourcePublicIpRead env { d with display_name := p.DisplayName.getD "" } w1).after
        [.CreatePublicIp d.id
          { DisplayName := some d.display_name, Id := some d.id, Ip := none }] := by
  simp only [resourcePublicIpUpdate, Get_url, Get_display_name, hc, hcreate,
    HasChange_display_name, hch, ResourceData.Id, Set_display_name, if_true]

theorem update_calls {κ σ : Type} (env : Env κ σ) (d : ResourceData) (w : σ)
    (connector : κ)
    (hc : env.getNSXTReverseProxyURLConnector d.nsxt_reverse_proxy_url = .ok connector)
    (hch : d.display_name_changed = true) :
    ∃ rest, (resourcePublicIpUpdate env d w).calls =
        .CreatePublicIp d.id
          { DisplayName := some d.display_name, Id := some d.id, Ip := none } :: rest ∧
      (∀ id m, SdkCall.CreatePublicIp id m ∉ rest) ∧ rest.length ≤ 1 := by
  cases hcr : (env.NewCloudServiceVMCOnAWSPublicIPClient connector).CreatePublicIp w d.id
      { DisplayName := some d.display_name, Id := some d.id, Ip := none } with
  | mk res w1 =>
    cases res with
    | error e =>
      refine ⟨[], ?_, by simp, by simp⟩
      simp only [resourcePublicIpUpdate, Get_url, Get_display_name, hc, hcr,
        HasChange_display_name, hch, ResourceData.Id, if_true]
    | ok p =>
      refine ⟨(resourcePublicIpRead env
        { d with display_name := p.DisplayName.getD "" } w1).calls, ?_, ?_, ?_⟩
      · rw [update_eq_of_ok env d w connector p w1 hc hch hcr]
        rfl
      · intro id m
        exact read_no_create env _ w1 id m
      · rw [read_calls_length env { d with display_name := p.DisplayName.getD "" } w1
          connector hc]
        split <;> simp

/-- C5 (amended): if `display_name` has no pending change, `resourcePublicIpUpdate` makes
no `CreatePublicIp` call and its whole run (return value, resulting state, calls) is that
of `resourcePublicIpRead` on the same state. If `display_name` has changed and the
connector can be built, Update first calls `CreatePublicIp` with the existing resource ID
as path id and as the model `Id` and the new `display_name` as `DisplayName`, makes no
other `CreatePublicIp` call, and when that call succeeds it sets `display_name` to the
returned `DisplayName` and continues as Read. -/
theorem resourcePublicIpUpdate_spec {κ σ : Type} (env : Env κ σ) (d : ResourceData) (w : σ) :
    (d.display_name_changed = false →
      resourcePublicIpUpdate env d w = resourcePublicIpRead env d w ∧
      ∀ id m, SdkCall.CreatePublicIp id m ∉ (resourcePublicIpUpdate env d w).calls) ∧
    (d.display_name_changed = true →
      ∀ connector, env.getNSXTReverseProxyURLConnector d.nsxt_reverse_proxy_url = .ok connector →
        (∃ rest, (resourcePublicIpUpdate env d w).calls =
            .CreatePublicIp d.id
              { DisplayName := some d.display_name, Id := some d.id, Ip := none } :: rest ∧
          ∀ id m, SdkCall.CreatePublicIp id m ∉ rest) ∧
        (∀ p w1, (env.NewCloudServiceVMCOnAWSPublicIPClient connector).CreatePublicIp w d.id
            { DisplayName := some d.display_name, Id := some d.id, Ip := none } = (.ok p, w1) →
          resourcePublicIpUpdate env d w =
            (resourcePublicIpRead env { d with display_name := p.DisplayName.getD "" } w1).after
              [.CreatePublicIp d.id
                { DisplayName := some d.display_name, Id := some d.id, Ip := none }])) := by
  refine ⟨?_, ?_⟩
  · intro hch
    refine ⟨update_eq_of_unchanged env d w hch, ?_⟩
    intro id m
    rw [update_eq_of_unchanged env d w hch]
    exact read_no_create env d w id m
  · intro hch connector hc
    refine ⟨?_, ?_⟩
    · obtain ⟨rest, h1, h2, _⟩ := update_calls env d w connector hc hch
      exact ⟨rest, h1, h2⟩
    · intro p w1 hcr
      exact update_eq_of_ok env d w connector p w1 hc hch hcr

/-- C5, instance: a changed `display_name` on the in-memory service is re-submitted under
the existing ID `7`. -/
theorem resourcePublicIpUpdate_spec_witness :
    ∃ rest, (resourcePublicIpUpdate demoEnv
        { demoData "https://nsx" "web" with id := "7", display_name_changed := true } []).calls =
      .CreatePublicIp "7" { DisplayName := some "web", Id := some "7", Ip := none } :: rest ∧
      ∀ id m, SdkCall.CreatePublicIp id m ∉ rest :=
  ((resourcePublicIpUpdate_spec demoEnv
    { demoData "https://nsx" "web" with id := "7", display_name_changed := true } []).2 rfl
      "https://nsx" rfl).1

/-- C5, counterexample: `display_name` has changed but the URL is empty, so the connector
cannot be built and Update returns the wrapped connector error without any
`CreatePublicIp` call. -/
theorem resourcePublicIpUpdate_no_call_without_connector :
    ({ demoData "" "web" with id := "7", display_name_changed := true } :
      ResourceData).display_name_changed = true ∧
    (resourcePublicIpUpdate demoEnv
      { demoData "" "web" with id := "7", display_name_changed := true } []).calls = [] ∧
    (resourcePublicIpUpdate demoEnv
      { demoData "" "web" with id := "7", display_name_changed := true } []).out =
      .returned (demoEnv.HandleCreateError "NSXT reverse proxy URL connector"
        (.sdk "NSXT reverse proxy url is required")) := by
  decide

theorem read_calls {κ σ : Type} (env : Env κ σ) (d : ResourceData) (w : σ) (connector : κ)
    (hc : env.getNSXTReverseProxyURLConnector d.nsxt_reverse_proxy_url = .ok connector) :
    (resourcePublicIpRead env d w).calls =
      if d.id ≠ "" then [.GetPublicIp d.id]
      else if d.display_name ≠ "" then [.ListPublicIps] else [] := by
  by_cases hid : d.id = ""
  · by_cases hn : d.display_name = ""
    · rw [read_eq_of_empty env d w connector hc hid hn]
      simp [hid, hn]
    · rw [read_eq_of_name env d w connector hc hid hn]
      simp only [hid, hn, ne_eq, not_true_eq_false, not_false_eq_true, if_true, if_false]
      split
      · rfl
      · split <;> rfl
  · rw [read_eq_of_id env d w connector hc hid]
    simp only [hid, ne_eq, not_false_eq_true, if_true]
    split <;> rfl

theorem create_calls_eq {κ σ : Type} (env : Env κ σ) (u : String) (d : ResourceData) (w : σ)
    (connector : κ)
    (hc : env.getNSXTReverseProxyURLConnector d.nsxt_reverse_proxy_url = .ok connector) :
    (resourcePublicIpCreate env u d w).calls =
      .CreatePublicIp u { DisplayName := some d.display_name, Id := some u, Ip := none } ::
        (match (env.NewCloudServiceVMCOnAWSPublicIPClient connector).CreatePublicIp w u
            { DisplayName := some d.display_name, Id := some u, Ip := none } with
          | (.ok p, w1) =>
            match p.Id with
            | some i => (resourcePublicIpRead env { d with id := i } w1).calls
            | none => []
          | (.error _, _) => []) := by
  cases hcr : (env.NewCloudServiceVMCOnAWSPublicIPClient connector).CreatePublicIp w u
      { DisplayName := some d.display_name, Id := some u, Ip := none } with
  | mk res w1 =>
    cases res with
    | error e =>
      simp only [resourcePublicIpCreate, Get_url, Get_display_name, hc, hcr]
    | ok p =>
      cases hp : p.Id with
      | none =>
        simp only [resourcePublicIpCreate, Get_url, Get_display_name, hc, hcr, hp]
      | some i =>
        rw [create_eq_of_ok env u d w connector p w1 i hc hcr hp]
        simp only [hp]
        rfl

theorem update_calls_eq {κ σ : Type} (env : Env κ σ) (d : ResourceData) (w : σ)
    (connector : κ)
    (hc : env.getNSXTReverseProxyURLConnector d.nsxt_reverse_proxy_url = .ok connector) :
    (resourcePublicIpUpdate env d w).calls =
      if d.display_name_changed = true then
        .CreatePublicIp d.id { DisplayName := some d.display_name, Id := some d.id, Ip := none } ::
          (match (env.NewCloudServiceVMCOnAWSPublicIPClient connector).CreatePublicIp w d.id
              { DisplayName := some d.display_name, Id := some d.id, Ip := none } with
            | (.ok p, w1) =>
              (resourcePublicIpRead env
                { d with display_name := p.DisplayName.getD "" } w1).calls
            | (.error _, _) => [])
      else (resourcePublicIpRead env d w).calls := by
  by_cases hch : d.display_name_changed = true
  · rw [if_pos hch]
    cases hcr : (env.NewCloudServiceVMCOnAWSPublicIPClient connector).CreatePublicIp w d.id
        { DisplayName := some d.display_name, Id := some d.id, Ip := none } with
    | mk res w1 =>
      cases res with
      | error e =>
        simp only [resourcePublicIpUpdate, Get_url, Get_display_name, hc, hcr,
          HasChange_display_name, hch, ResourceData.Id, if_true]
      | ok p =>
        rw [update_eq_of_ok env d w connector p w1 hc hch hcr]
        rfl
  · rw [if_neg hch]
    have hf : d.display_name_changed = false := by simpa using hch
    rw [update_eq_of_unchanged env d w hf]

/-- C6 (amended): when the connector is built, the vendor SDK calls of each handler are
exactly these. Delete: one call, `DeletePublicIp`. Read (on any state with the same URL):
one call, `GetPublicIp` when the ID is non-empty, else `ListPublicIps` when `display_name`
is non-empty, else none. Create: `CreatePublicIp`, followed, when that call succeeds with
an `Id` `i`, by the calls of Read on the state with ID `i`; so one call when the create
fails (or returns no `Id`, or `i` and `display_name` are both empty) and two otherwise.
Update: the calls of Read when `display_name` is unchanged; when it has changed,
`CreatePublicIp`, followed, when that call succeeds, by the calls of Read on the state
with `display_name` set to the returned `DisplayName`; so one call when that create
fails (or the ID and the returned `DisplayName` are both empty) and two otherwise. -/
theorem handlers_sdk_call_count {κ σ : Type} (env : Env κ σ) (u : String) (d : ResourceData)
    (w : σ) (connector : κ)
    (hc : env.getNSXTReverseProxyURLConnector d.nsxt_reverse_proxy_url = .ok connector) :
    (resourcePublicIpDelete env d w).calls.length = 1 ∧
    (resourcePublicIpDelete env d w).calls = [.DeletePublicIp d.id (some true)] ∧
    (∀ (d1 : ResourceData) (w1 : σ), d1.nsxt_reverse_proxy_url = d.nsxt_reverse_proxy_url →
      (resourcePublicIpRead env d1 w1).calls =
        (if d1.id ≠ "" then [.GetPublicIp d1.id]
          else if d1.display_name ≠ "" then [.ListPublicIps] else []) ∧
      (resourcePublicIpRead env d1 w1).calls.length =
        (if d1.id = "" ∧ d1.display_name = "" then 0 else 1)) ∧
    (resourcePublicIpCreate env u d w).calls =
      .CreatePublicIp u { DisplayName := some d.display_name, Id := some u, Ip := none } ::
        (match (env.NewCloudServiceVMCOnAWSPublicIPClient connector).CreatePublicIp w u
            { DisplayName := some d.display_name, Id := some u, Ip := none } with
          | (.ok p, w1) =>
            match p.Id with
            | some i => (resourcePublicIpRead env { d with id := i } w1).calls
            | none => []
          | (.error _, _) => []) ∧
    (resourcePublicIpCreate env u d w).calls.length =
      (match (env.NewCloudServiceVMCOnAWSPublicIPClient connector).CreatePublicIp w u
          { DisplayName := some d.display_name, Id := some u, Ip := none } with
        | (.ok p, _) =>
          match p.Id with
          | some i => if i = "" ∧ d.display_name = "" then 1 else 2
          | none => 1
        | (.error _, _) => 1) ∧
    (resourcePublicIpUpdate env d w).calls =
      (if d.display_name_changed = true then
        .CreatePublicIp d.id { DisplayName := some d.display_name, Id := some d.id, Ip := none } ::
          (match (env.NewCloudServiceVMCOnAWSPublicIPClient connector).CreatePublicIp w d.id
              { DisplayName := some d.display_name, Id := some d.id, Ip := none } with
            | (.ok p, w1) =>
              (resourcePublicIpRead env
                { d with display_name := p.DisplayName.getD "" } w1).calls
            | (.error _, _) => [])
      else (resourcePublicIpRead env d w).calls) ∧
    (resourcePublicIpUpdate env d w).calls.length =
      (if d.display_name_changed = true then
        match (env.NewCloudServiceVMCOnAWSPublicIPClient connector).CreatePublicIp w d.id
            { DisplayName := some d.display_name, Id := some d.id, Ip := none } with
        | (.ok p, _) => if d.id = "" ∧ p.DisplayName.getD "" = "" then 1 else 2
        | (.error _, _) => 1
      else if d.id = "" ∧ d.display_name = "" then 0 else 1) := by
  have hdel : (resourcePublicIpDelete env d w).calls = [.DeletePublicIp d.id (some true)] := by
    simp only [resourcePublicIpDelete, Get_url, hc, ResourceData.Id]
    split <;> rfl
  refine ⟨by rw [hdel]; rfl, hdel, ?_, create_calls_eq env u d w connector hc, ?_,
    update_calls_eq env d w connector hc, ?_⟩
  · intro d1 w1 hurl
    have hc1 : env.getNSXTReverseProxyURLConnector d1.nsxt_reverse_proxy_url = .ok connector := by
      rw [hurl]
      exact hc
    exact ⟨read_calls env d1 w1 connector hc1, read_calls_length env d1 w1 connector hc1⟩
  · rw [create_calls_eq env u d w connector hc]
    cases hcr : (env.NewCloudServiceVMCOnAWSPublicIPClient connector).CreatePublicIp w u
        { DisplayName := some d.display_name, Id := some u, Ip := none } with
    | mk res w1 =>
      cases res with
      | error e => rfl
      | ok p =>
        cases hp : p.Id with
        | none => simp only [hp]; rfl
        | some i =>
          simp only [hp, List.length_cons]
          rw [read_calls_length env { d with id := i } w1 connector hc]
          split <;> rfl
  · rw [update_calls_eq env d w connector hc]
    by_cases hch : d.display_name_changed = true
    · rw [if_pos hch, if_pos hch]
      cases hcr : (env.NewCloudServiceVMCOnAWSPublicIPClient connector).CreatePublicIp w d.id
          { DisplayName := some d.display_name, Id := some d.id, Ip := none } with
      | mk res w1 =>
        cases res with
        | error e => rfl
        | ok p =>
          simp only [List.length_cons]
          rw [read_calls_length env { d with display_name := p.DisplayName.getD "" } w1
            connector hc]
          split <;> rfl
    · rw [if_neg hch, if_neg hch]
      exact read_calls_length env d w connector hc

/-- C6, instance: on the in-memory service, for a state with URL `https://nsx`, Delete
makes one SDK call and a successful Create makes two. -/
theorem handlers_sdk_call_count_witness :
    demoEnv.getNSXTReverseProxyURLConnector (demoData "https://nsx" "web").nsxt_reverse_proxy_url
      = .ok "https://nsx" ∧
    (resourcePublicIpDelete demoEnv (demoData "https://nsx" "web") []).calls.length = 1 ∧
    (resourcePublicIpCreate demoEnv "u-1" (demoData "https://nsx" "web") []).calls.length = 2 :=
  ⟨rfl,
    (handlers_sdk_call_count demoEnv "u-1" (demoData "https://nsx" "web") []
      "https://nsx" rfl).1,
    (handlers_sdk_call_count demoEnv "u-1" (demoData "https://nsx" "web") []
      "https://nsx" rfl).2.2.2.2.1.trans (by decide)⟩

/-- C6, counterexample: with the connector built, a successful Create makes two SDK calls
(`CreatePublicIp`, then `GetPublicIp` of the read-back), an Update of a changed
`display_name` makes two, and a Read with empty ID and empty `display_name` makes none. -/
theorem sdk_call_count_not_always_one :
    (resourcePublicIpCreate demoEnv "u-1" (demoData "https://nsx" "web") []).calls =
      [.CreatePublicIp "u-1" { DisplayName := some "web", Id := some "u-1", Ip := none },
        .GetPublicIp "u-1"] ∧
    (resourcePublicIpUpdate demoEnv
      { demoData "https://nsx" "web" with id := "7", display_name_changed := true } []).calls =
      [.CreatePublicIp "7" { DisplayName := some "web", Id := some "7", Ip := none },
        .GetPublicIp "7"] ∧
    (resourcePublicIpRead demoEnv (demoData "https://nsx" "") []).calls = [] := by
  decide

/-- C9 (amended): for a state with empty resource ID whose connector can be built: if
`display_name` is empty, Read makes no SDK call, returns nil and leaves the state
unchanged; if `display_name` is a non-empty `n` and `ListPublicIps` succeeds with entries
that all have a `DisplayName`, Read returns nil after that one call, and the state is
unchanged when no entry is named `n`, and otherwise has `ip` and `display_name` set from
the first entry in list order named `n`. -/
theorem resourcePublicIpRead_lookup {κ σ : Type} (env : Env κ σ) (d : ResourceData) (w : σ)
    (connector : κ)
    (hc : env.getNSXTReverseProxyURLConnector d.nsxt_reverse_proxy_url = .ok connector)
    (hid : d.id = "") :
    (d.display_name = "" → resourcePublicIpRead env d w = ⟨.returned none, d, w, []⟩) ∧
    (d.display_name ≠ "" →
      ∀ res w1, (env.NewCloudServiceVMCOnAWSPublicIPClient connector).ListPublicIps w
          = (.ok res, w1) →
        (∀ p ∈ res.Results, p.DisplayName ≠ none) →
        resourcePublicIpRead env d w =
          ⟨.returned none,
            match res.Results.find? (fun p => decide (p.DisplayName = some d.display_name)) with
            | some p => { d with ip := p.Ip.getD "", display_name := p.DisplayName.getD "" }
            | none => d,
            w1, [.ListPublicIps]⟩) := by
  refine ⟨?_, ?_⟩
  · intro hn
    exact read_eq_of_empty env d w connector hc hid hn
  · intro hn res w1 hlist hall
    rw [read_eq_of_name env d w connector hc hid hn, hlist]
    simp only [readLoop_eq_find d.display_name res.Results d hall]

/-- C9, instance: on the in-memory service holding `db`, `web`, `web`, a Read with empty
ID and `display_name` `web` takes the address of the first `web` entry. -/
theorem resourcePublicIpRead_lookup_witness :
    demoEnv.getNSXTReverseProxyURLConnector (demoData "https://nsx" "web").nsxt_reverse_proxy_url
      = .ok "https://nsx" ∧
    (demoData "https://nsx" "web").id = "" ∧
    (resourcePublicIpRead demoEnv (demoData "https://nsx" "web")
      [⟨some "db", some "1", some "198.51.100.1"⟩, ⟨some "web", some "2", some "198.51.100.2"⟩,
        ⟨some "web", some "3", some "198.51.100.3"⟩]).d =
      { demoData "https://nsx" "web" with ip := "198.51.100.2" } :=
  ⟨rfl, rfl, by
    rw [(resourcePublicIpRead_lookup demoEnv (demoData "https://nsx" "web")
      [⟨some "db", some "1", some "198.51.100.1"⟩, ⟨some "web", some "2", some "198.51.100.2"⟩,
        ⟨some "web", some "3", some "198.51.100.3"⟩] "https://nsx" rfl rfl).2 (by decide)
      ⟨[⟨some "db", some "1", some "198.51.100.1"⟩, ⟨some "web", some "2", some "198.51.100.2"⟩,
        ⟨some "web", some "3", some "198.51.100.3"⟩]⟩ _ rfl (by decide)]
    decide⟩

/-- C9, counterexample: a state with empty ID, empty `display_name` and empty URL. The
connector cannot be built, and Read returns the wrapped connector error instead of nil. -/
theorem resourcePublicIpRead_error_without_connector :
    (demoData "" "").id = "" ∧ (demoData "" "").display_name = "" ∧
    (resourcePublicIpRead demoEnv (demoData "" "") []).out ≠ .returned none ∧
    (resourcePublicIpRead demoEnv (demoData "" "") []).out =
      .returned (demoEnv.HandleCreateError "NSXT reverse proxy URL connector"
        (.sdk "NSXT reverse proxy url is required")) := by
  decide

/-- C10: on a state with empty ID and `display_name` `web`, when `ListPublicIps` succeeds
with one entry whose `DisplayName` is absent, `resourcePublicIpRead` dereferences the nil
`DisplayName` and panics instead of returning. -/
theorem resourcePublicIpRead_panics_on_absent_DisplayName :
    (demoEnv.NewCloudServiceVMCOnAWSPublicIPClient "https://nsx").ListPublicIps
      [⟨none, some "1", some "198.51.100.1"⟩] =
      (.ok ⟨[⟨none, some "1", some "198.51.100.1"⟩]⟩, [⟨none, some "1", some "198.51.100.1"⟩]) ∧
    (resourcePublicIpRead demoEnv (demoData "https://nsx" "web")
      [⟨none, some "1", some "198.51.100.1"⟩]).out = .panicked :=
  ⟨rfl, by decide⟩

/-- C8: with two `vmc_sddc` resources in the state, the first one visited `DELETED` and
the second still `READY`, `testCheckVmcSddcDestroy` returns nil after the first: the
second SDDC is never looked at. -/
theorem testCheckVmcSddcDestroy_passes_with_live_sddc :
    testCheckVmcSddcDestroy demoGet demoErrorText (.sdk "com.vmware.vapi.std.errors.not_found")
      demoResources = .returned none ∧
    (⟨"vmc_sddc", [("id", "sddc-b"), ("org_id", "org-1")]⟩ : ResourceState) ∈ demoResources ∧
    demoGet "org-1" "sddc-b" = .ok ⟨some "READY", some "b", "sddc-b"⟩ :=
  ⟨by decide, by decide, rfl⟩

end vmc
